import Mathlib

/-!
Verification of the Student Performance Analyzer (`main.py`).

The program is a menu-driven CSV-backed student marks tracker.  We embed its
pure core: the fixed subject list, percentage and grade computation, the
CSV storage layer (initialize / add / save / load), and the analysis
submenu dispatch, and prove the specified properties about them.

Numeric cells are modelled as exact rationals (`ℚ`); a pandas `NaN` cell is
modelled as `none : Option ℚ`.  Python's `round(x, 2)` rounds half to even
on the value scaled by 100; we model it exactly on `ℚ` (for the values this
program rounds, the double-precision computation agrees with the exact
rational rounding, because sums of at most six integer marks divided by 6
are never within float error of a two-decimal tie).

The persistent file is modelled at the granularity of its comma-separated
fields: an absent file is `none`, a present file is the list of its lines,
each line the list of its field strings.
-/

namespace StudentAnalyzer

/-- The fixed ordered subject list, from `SUBJECTS` in `main.py`. -/
def SUBJECTS : List String := ["Machine Learning", "UHV", "DMGT", "DBMS", "OT", "ES"]

/-- The CSV header row written by the program: `Name` followed by the subjects. -/
def headerRow : List String := "Name" :: SUBJECTS

/-- Round a rational to the nearest integer, ties to even (Python / IEEE
`round` semantics used by `round(x, 2)` after scaling). -/
def rhe (q : ℚ) : ℤ :=
  if q - ⌊q⌋ < 1/2 then ⌊q⌋
  else if 1/2 < q - ⌊q⌋ then ⌊q⌋ + 1
  else if Even ⌊q⌋ then ⌊q⌋ else ⌊q⌋ + 1

/-- Python's `round(q, 2)`: round half to even at the second decimal place. -/
def round2 (q : ℚ) : ℚ := (rhe (q * 100) : ℚ) / 100

/-- `assign_grade` from `main.py`: highest-first threshold chain. -/
def assign_grade (p : ℚ) : String :=
  if p ≥ 90 then "A+"
  else if p ≥ 80 then "A"
  else if p ≥ 70 then "B+"
  else if p ≥ 60 then "B"
  else if p ≥ 50 then "C"
  else if p ≥ 40 then "D"
  else "F"

/-- A pandas float cell value: `none` models `NaN`. -/
abbrev PFloat := Option ℚ

/-- `assign_grade` applied to a pandas float: every `NaN >= t` comparison is
false in Python, so a `NaN` percentage falls through every branch to `'F'`. -/
def assign_grade_float : PFloat → String
  | none => "F"
  | some p => assign_grade p

/-! ## Rows and the percentage computation

A dataframe row is a student name (the `Name` column, always present in the
files this program writes) together with an association list from column
name to numeric value.  A column that exists in the dataframe but has no
value stored for this row reads as `NaN`; looking up a column that is not
in the dataframe's column list at all raises `KeyError` in pandas. -/

/-- One dataframe row: the `Name` cell plus the numeric cells present. -/
structure Row where
  name : String
  data : List (String × ℚ)
deriving DecidableEq

/-- `row[sub]` in pandas: `none` models a `KeyError` (column absent from the
dataframe), `some none` models a `NaN` cell (column present, value missing),
`some (some v)` a stored numeric value. -/
def getCell (cols : List String) (r : Row) (sub : String) : Option PFloat :=
  if cols.contains sub then some (r.data.lookup sub) else none

/-- Addition of pandas floats: `NaN` absorbs. -/
def nanAdd : PFloat → PFloat → PFloat
  | some a, some b => some (a + b)
  | _, _ => none

/-- Python's `sum` over pandas floats, left to right from 0; any `NaN`
summand makes the total `NaN`. -/
def nanSum (l : List PFloat) : PFloat := l.foldl nanAdd (some 0)

/-- `calculate_percentage` from `main.py`.  Returns the percentage value
together with the list of warning lines printed.  The `try` block sums
`row[sub]` over `SUBJECTS` and rounds; a `KeyError` (some subject column
absent) is caught, a warning naming the student is printed, and `0.0` is
returned for the record. -/
def calculate_percentage (cols : List String) (r : Row) : PFloat × List String :=
  match SUBJECTS.mapM (getCell cols r) with
  | some cells =>
      ((nanSum cells).map (fun total =>
        round2 (total / ((SUBJECTS.length : ℚ) * 100) * 100)), [])
  | none => (some 0, ["Warning: Missing subject data for " ++ r.name])

/-- A fully-filled row: each subject in order paired with its integer mark. -/
def mkRow (name : String) (marks : List ℕ) : Row :=
  ⟨name, SUBJECTS.zip (marks.map (fun m => (m : ℚ)))⟩

/-! ## The CSV store -/

/-- The decimal digit character for `n < 10`. -/
def digitChar (n : ℕ) : Char := Char.ofNat (48 + n)

/-- Fuel-driven decimal printer (`fuel ≥ n` suffices). -/
def toDigitsAux : ℕ → ℕ → List Char
  | 0, _ => []
  | fuel + 1, n => if n < 10 then [digitChar n] else toDigitsAux fuel (n / 10) ++ [digitChar (n % 10)]

/-- The decimal string for a natural number, as pandas writes integer cells. -/
def natRepr (n : ℕ) : String := String.mk (toDigitsAux (n + 1) n)

/-- The numeric value of a decimal digit character, if it is one. -/
def digitVal (c : Char) : Option ℕ :=
  if '0' ≤ c ∧ c ≤ '9' then some (c.toNat - 48) else none

/-- Parse a non-empty all-digit string as a natural number, as pandas reads
an integer cell back. -/
def parseNat (s : String) : Option ℕ :=
  if s.data.isEmpty then none
  else s.data.foldlM (fun acc c => (digitVal c).map (fun d => acc * 10 + d)) 0

/-- The two pandas read failures relevant to this program: `EmptyDataError`
for a file with no parsable lines, and `ParserError` for a tokenization
failure (a data line with more fields than the header line). -/
inductive ReadError where
  | emptyData
  | parserError
deriving DecidableEq

/-- A parsed dataframe, still at field-string granularity. -/
structure Frame where
  header : List String
  rows : List (List String)
deriving DecidableEq

/-- The tokenization step of `pd.read_csv`: an empty file raises
`EmptyDataError`; a data line with more fields than the header raises
`ParserError`; otherwise the frame of raw field strings is returned (short
lines are padded with `NaN` at access time).  Conversion of the raw fields
into dataframe *values* — NA-sentinel coercion and column dtype inference —
is modelled separately by `loadNames` / `loadMarks` (storage path) and
`parseCell` (analysis path). -/
def read_csv (content : List (List String)) : Except ReadError Frame :=
  match content with
  | [] => .error .emptyData
  | header :: data =>
      if data.all (fun r => r.length ≤ header.length) then .ok ⟨header, data⟩
      else .error .parserError

/-- The column-completion loop of `initialize_csv`: every subject missing
from the header is appended as a new column with value `0` for every
existing row. -/
def ensure_columns_frame (fr : Frame) : Frame :=
  let missing := SUBJECTS.filter (fun sub => ¬ fr.header.contains sub)
  ⟨fr.header ++ missing, fr.rows.map (fun r => r ++ missing.map (fun _ => "0"))⟩

/-- `initialize_csv` from `main.py`: if the file is absent, create it with
just the header line; otherwise read it, add any missing subject columns
with value 0, and rewrite it.  Only `EmptyDataError` is caught (and handled
by recreating the header-only file); any other read error propagates. -/
def initialize_csv (file : Option (List (List String))) :
    Except ReadError (List (List String)) :=
  match file with
  | none => .ok [headerRow]
  | some content =>
      match read_csv content with
      | .ok fr => .ok ((ensure_columns_frame fr).header :: (ensure_columns_frame fr).rows)
      | .error .emptyData => .ok [headerRow]
      | .error e => .error e

/-! ## The analysis pipeline -/

/-- A numeric cell as read back by pandas from a file this program wrote:
integer cells are decimal numerals; an empty field is `NaN`. -/
def parseCell (s : String) : Option ℚ := (parseNat s).map (fun n => (n : ℚ))

/-- One dataframe row built from a data line: the `Name` cell (looked up by
column) plus every numeric cell present. -/
def toRow (header : List String) (line : List String) : Row :=
  ⟨((header.zip line).lookup "Name").getD "",
   (header.zip line).filterMap (fun p => (parseCell p.2).map (fun v => (p.1, v)))⟩

/-- The in-memory dataframe: its column list and its rows, in file order. -/
structure Table where
  cols : List String
  rows : List Row
deriving DecidableEq

/-- The dataframe read from a frame of field strings. -/
def toTable (fr : Frame) : Table :=
  ⟨fr.header, fr.rows.map (toRow fr.header)⟩

/-- The column-completion loop at the top of `analyze_performance`: every
subject absent from the dataframe's columns is added with value 0 for
every row. -/
def ensure_columns_table (t : Table) : Table :=
  let missing := SUBJECTS.filter (fun sub => ¬ t.cols.contains sub)
  ⟨t.cols ++ missing,
   t.rows.map (fun r => ⟨r.name, r.data ++ missing.map (fun sub => (sub, (0 : ℚ)))⟩)⟩

/-- The derived `Percentage` value of one row. -/
def pctOf (cols : List String) (r : Row) : PFloat := (calculate_percentage cols r).1

/-- The derived `Grade` value of one row. -/
def gradeOf (cols : List String) (r : Row) : String := assign_grade_float (pctOf cols r)

/-- The derived `Percentage` column, in stored order. -/
def pct_col (t : Table) : List PFloat := t.rows.map (pctOf t.cols)

/-- The mean of one subject column (`df[SUBJECTS].mean()` semantics): `NaN`
cells are skipped; the mean of no values is `NaN`. -/
def col_mean (rows : List Row) (sub : String) : PFloat :=
  let vs := rows.filterMap (fun r => r.data.lookup sub)
  if vs.isEmpty then none else some (vs.sum / (vs.length : ℚ))

/-- `df[SUBJECTS].mean().round(2)`: the per-subject averages, rounded. -/
def subject_averages (rows : List Row) : List (String × PFloat) :=
  SUBJECTS.map (fun sub => (sub, (col_mean rows sub).map round2))

/-- The mean of a pandas float series, skipping `NaN`. -/
def series_mean (l : List PFloat) : PFloat :=
  let vs := l.filterMap id
  if vs.isEmpty then none else some (vs.sum / (vs.length : ℚ))

/-- `df['Percentage'].mean().round(2)`: the class average percentage. -/
def class_average (t : Table) : PFloat := (series_mean (pct_col t)).map round2

/-- `df[SUBJECTS].mean().max().round(2)`: the largest subject average. -/
def highest_subject_average (t : Table) : PFloat :=
  ((SUBJECTS.map (col_mean t.rows)).filterMap id).max?.map round2

/-- `df[SUBJECTS].mean().min().round(2)`: the smallest subject average. -/
def lowest_subject_average (t : Table) : PFloat :=
  ((SUBJECTS.map (col_mean t.rows)).filterMap id).min?.map round2

/-- The grade letters `assign_grade` can return, in ascending string order
(the order `value_counts().sort_index()` displays). -/
def GRADES : List String := ["A", "A+", "B", "B+", "C", "D", "F"]

/-- `df['Grade'].value_counts().sort_index()`: the count of each grade
present, keyed by grade letter in ascending order. -/
def grade_counts (t : Table) : List (String × ℕ) :=
  GRADES.filterMap (fun g =>
    let c := (t.rows.map (gradeOf t.cols)).count g
    if c = 0 then none else some (g, c))

/-- The argmax scan underlying `Series.idxmax` (numpy semantics): walk the
values left to right, skip `NaN`, keep the current best and replace it only
on a strictly better value. -/
def argBestAux (better : ℚ → ℚ → Bool) :
    List PFloat → ℕ → Option (ℕ × ℚ) → Option (ℕ × ℚ)
  | [], _, best => best
  | none :: t, i, best => argBestAux better t (i + 1) best
  | some v :: t, i, best =>
      argBestAux better t (i + 1)
        (match best with
         | none => some (i, v)
         | some (j, m) => if better v m then some (i, v) else some (j, m))

/-- `df['Percentage'].idxmax()`: index of the first occurrence of the
maximal (non-`NaN`) percentage, or `none` when there is no value. -/
def idxmax (l : List PFloat) : Option ℕ :=
  (argBestAux (fun v m => m < v) l 0 none).map Prod.fst

/-- `df['Percentage'].idxmin()`: index of the first occurrence of the
minimal (non-`NaN`) percentage, or `none` when there is no value. -/
def idxmin (l : List PFloat) : Option ℕ :=
  (argBestAux (fun v m => v < m) l 0 none).map Prod.fst

/-- `df.loc[df['Percentage'].idxmax()]`: the topper's row. -/
def topper (t : Table) : Option Row :=
  (idxmax (pct_col t)).bind (fun i => t.rows.get? i)

/-- `df.loc[df['Percentage'].idxmin()]`: the duller's row. -/
def duller (t : Table) : Option Row :=
  (idxmin (pct_col t)).bind (fun i => t.rows.get? i)

/-- The view printed by submenu choice 1: name, subject cells, percentage
and grade for every row in stored order. -/
def list_view (t : Table) : List (String × List PFloat × PFloat × String) :=
  t.rows.map (fun r =>
    (r.name, SUBJECTS.map (fun sub => (getCell t.cols r sub).join),
     pctOf t.cols r, gradeOf t.cols r))

/-- The name, percentage and grade printed for the topper/duller. -/
def person_view (t : Table) (r : Row) : String × PFloat × String :=
  (r.name, pctOf t.cols r, gradeOf t.cols r)

/-- Everything one round of the analysis submenu can print. -/
inductive AOut where
  | noDataFound
  | noStudentRecords
  | listAll (view : List (String × List PFloat × PFloat × String))
  | subjectAvgs (avgs : List (String × PFloat))
  | topperDuller (top dull : Option (String × PFloat × String))
  | classStats (avg : PFloat) (grade : String) (hi lo : PFloat) (counts : List (String × ℕ))
  | noStudentsToAnalyze
  | back
  | invalidChoice
  | errorCaught
deriving DecidableEq

/-- The file-system state the program touches: the CSV store and the two
chart images (each image holds the data it renders). -/
structure FS where
  csv : Option (List (List String))
  subject_averages_png : Option (List (String × PFloat))
  grade_distribution_png : Option (List (String × ℕ))
deriving DecidableEq

/-- One round of the analysis submenu body on the prepared dataframe:
choice 1 lists the table; choice 2 plots and saves the subject averages;
choice 3 prints topper and duller if there are rows; choice 4 prints the
class statistics and saves the grade distribution pie if there are rows;
choice 5 goes back; anything else is rejected. -/
def submenu_step (fs : FS) (t : Table) (choice : String) : FS × AOut :=
  if choice = "1" then (fs, .listAll (list_view t))
  else if choice = "2" then
    ({fs with subject_averages_png := some (subject_averages t.rows)},
     .subjectAvgs (subject_averages t.rows))
  else if choice = "3" then
    if 0 < t.rows.length then
      (fs, .topperDuller ((topper t).map (person_view t)) ((duller t).map (person_view t)))
    else (fs, .noStudentsToAnalyze)
  else if choice = "4" then
    if 0 < t.rows.length then
      ({fs with grade_distribution_png := some (grade_counts t)},
       .classStats (class_average t) (assign_grade_float (class_average t))
         (highest_subject_average t) (lowest_subject_average t) (grade_counts t))
    else (fs, .noStudentsToAnalyze)
  else if choice = "5" then (fs, .back)
  else (fs, .invalidChoice)

/-- `analyze_performance` from `main.py`, one submenu round: report "No
data found" if the file is absent or has size 0; read it (any error is
caught by the function's blanket `except`, which prints a generic message);
report "No student records found" if the dataframe is empty; otherwise add
missing subject columns and run the submenu body. -/
def analyze_performance (fs : FS) (choice : String) : FS × AOut :=
  match fs.csv with
  | none => (fs, .noDataFound)
  | some [] => (fs, .noDataFound)
  | some content =>
      match read_csv content with
      | .error _ => (fs, .errorCaught)
      | .ok fr =>
          if fr.rows.isEmpty then (fs, .noStudentRecords)
          else submenu_step fs (ensure_columns_table (toTable fr)) choice

/-- A concrete four-student table whose maximal percentage (60) is shared
by the first two records and whose minimal percentage (40) is shared by the
last two; used to exhibit the tie-breaking behaviour. -/
def tieTable : Table :=
  ⟨headerRow,
   [mkRow "a" [60, 60, 60, 60, 60, 60], mkRow "b" [60, 60, 60, 60, 60, 60],
    mkRow "c" [40, 40, 40, 40, 40, 40], mkRow "d" [40, 40, 40, 40, 40, 40]]⟩

end StudentAnalyzer

/-! # Theorems -/

namespace StudentAnalyzer

/-- A value with an exact two-decimal representation rounds to itself. -/
theorem round2_div100 (k : ℤ) : round2 ((k : ℚ) / 100) = (k : ℚ) / 100 := by
  have h : ((k : ℚ) / 100) * 100 = (k : ℚ) := by field_simp
  have hfl : ⌊(k : ℚ)⌋ = k := Int.floor_intCast k
  simp only [round2, rhe, h, hfl]
  norm_num

/-- An integer rounds to itself. -/
theorem round2_intCast (k : ℤ) : round2 (k : ℚ) = (k : ℚ) := by
  have h : ((k * 100 : ℤ) : ℚ) / 100 = (k : ℚ) := by push_cast; field_simp
  have := round2_div100 (k * 100)
  rw [h] at this
  exact this

/-- C2: `assign_grade` is a total, non-overlapping step function evaluated
highest-first: ≥90→A+, [80,90)→A, [70,80)→B+, [60,70)→B, [50,60)→C,
[40,50)→D, <40→F; the boundaries 90,80,70,60,50,40 map to A+,A,B+,B,C,D,
100 maps to A+, and 39.99 and 0 map to F. -/
theorem assign_grade_thresholds (p : ℚ) :
    (90 ≤ p → assign_grade p = "A+") ∧
    (80 ≤ p → p < 90 → assign_grade p = "A") ∧
    (70 ≤ p → p < 80 → assign_grade p = "B+") ∧
    (60 ≤ p → p < 70 → assign_grade p = "B") ∧
    (50 ≤ p → p < 60 → assign_grade p = "C") ∧
    (40 ≤ p → p < 50 → assign_grade p = "D") ∧
    (p < 40 → assign_grade p = "F") ∧
    assign_grade 90 = "A+" ∧ assign_grade 80 = "A" ∧ assign_grade 70 = "B+" ∧
    assign_grade 60 = "B" ∧ assign_grade 50 = "C" ∧ assign_grade 40 = "D" ∧
    assign_grade 100 = "A+" ∧ assign_grade (3999/100) = "F" ∧ assign_grade 0 = "F" := by
  refine ⟨?_, ?_, ?_, ?_, ?_, ?_, ?_, ?_, ?_, ?_, ?_, ?_, ?_, ?_, ?_, ?_⟩ <;>
    (intros; unfold assign_grade; split_ifs <;> first | rfl | linarith)

/-- Witness for C2 at the concrete percentage 85, which lies in `[80, 90)`
and receives grade `A`. -/
theorem assign_grade_thresholds_witness : assign_grade 85 = "A" :=
  (assign_grade_thresholds 85).2.1 (by norm_num) (by norm_num)

/-- Evaluation of `calculate_percentage` on a fully-filled row with six
explicit marks. -/
theorem calc_pct_six (n : String) (a b c d e f : ℕ) :
    calculate_percentage headerRow (mkRow n [a, b, c, d, e, f]) =
      (some (round2 (((a : ℚ) + b + c + d + e + f) / ((SUBJECTS.length : ℚ) * 100) * 100)),
        []) := by
  have h : SUBJECTS.mapM (getCell headerRow (mkRow n [a, b, c, d, e, f])) =
      some [some (a : ℚ), some (b : ℚ), some (c : ℚ), some (d : ℚ), some (e : ℚ),
        some (f : ℚ)] := rfl
  have h2 : nanSum [some (a : ℚ), some (b : ℚ), some (c : ℚ), some (d : ℚ), some (e : ℚ),
      some (f : ℚ)] = some (0 + (a : ℚ) + b + c + d + e + f) := rfl
  rw [calculate_percentage, h]
  simp [h2]

/-- Evaluation of `calculate_percentage` on any fully-filled row of six marks:
the result is exactly `round2` of the mark total over `6 × 100`, scaled to a
percentage, with no warnings. -/
theorem calc_pct_of_len6 (n : String) (marks : List ℕ) (h : marks.length = 6) :
    calculate_percentage headerRow (mkRow n marks) =
      (some (round2 ((marks.sum : ℚ) / ((SUBJECTS.length : ℚ) * 100) * 100)), []) := by
  rcases marks with _ | ⟨a, _ | ⟨b, _ | ⟨c, _ | ⟨d, _ | ⟨e, _ | ⟨f, _ | ⟨g, t⟩⟩⟩⟩⟩⟩⟩ <;>
    simp_all
  rw [calc_pct_six]
  ring_nf

/-- C1: for every record whose six subject marks are integers in `[0,100]`,
`calculate_percentage` returns exactly `round2(sum(m_i)/(6*100)*100)` with no
warning, and the result is invariant under permuting the marks across the
subject order. -/
theorem calculate_percentage_formula (name : String) (marks marks' : List ℕ)
    (h6 : marks.length = 6) (_hb : ∀ m ∈ marks, m ≤ 100) (hperm : marks.Perm marks') :
    calculate_percentage headerRow (mkRow name marks) =
      (some (round2 ((marks.sum : ℚ) / ((SUBJECTS.length : ℚ) * 100) * 100)), []) ∧
    calculate_percentage headerRow (mkRow name marks) =
      calculate_percentage headerRow (mkRow name marks') := by
  have h6' : marks'.length = 6 := hperm.length_eq ▸ h6
  have hsum : marks.sum = marks'.sum := hperm.sum_eq
  refine ⟨calc_pct_of_len6 name marks h6, ?_⟩
  rw [calc_pct_of_len6 name marks h6, calc_pct_of_len6 name marks' h6', hsum]

/-- Witness for C1: the marks `[90,80,70,60,50,40]` and their reversal give
the same (well-defined) percentage. -/
theorem calculate_percentage_formula_witness :
    calculate_percentage headerRow (mkRow "s" [90, 80, 70, 60, 50, 40]) =
      calculate_percentage headerRow (mkRow "s" [40, 50, 60, 70, 80, 90]) :=
  (calculate_percentage_formula "s" [90, 80, 70, 60, 50, 40] [40, 50, 60, 70, 80, 90]
    (by decide) (by decide) (by decide)).2

/-- Printing then parsing a mark in `[0,100]` is the identity. -/
theorem parseNat_natRepr : ∀ n < 101, parseNat (natRepr n) = some n := by decide

/-- `mapM` over `Option` on a cons, given the head and tail results. -/
theorem mapM_option_cons {α β : Type} (f : α → Option β) (a : α) (t : List α)
    (b : β) (bs : List β) (ha : f a = some b) (ht : t.mapM f = some bs) :
    (a :: t).mapM f = some (b :: bs) := by
  rw [← List.mapM'_eq_mapM] at ht ⊢
  simp [List.mapM', ha, ht]

/-- C5 counterexample: a parse error does escape initialization.  A stored
file whose data line has more fields than its header raises a pandas
`ParserError`, and `initialize_csv` catches only `EmptyDataError`, so the
error propagates out of initialization (crashing the program from `main`). -/
theorem initialize_csv_uncaught_parser_error :
    initialize_csv (some [["Name", "Machine Learning"], ["x", "1", "2"]]) =
      .error .parserError := rfl

/-- C5 (amended): initialization treats an absent file and an
empty-data read (`EmptyDataError`) as the fresh header-only table, and the
only read error that can escape it is a tokenization `ParserError`;
analysis catches every read error at the submenu boundary, reporting it
and leaving the file untouched (it does not treat it as an empty table). -/
theorem parse_error_handling (content : List (List String)) :
    initialize_csv none = .ok [headerRow] ∧
    (read_csv content = .error .emptyData → initialize_csv (some content) = .ok [headerRow]) ∧
    (∀ e, initialize_csv (some content) = .error e → e = .parserError) ∧
    (∀ fs choice, fs.csv = some content → read_csv content = .error .parserError →
      analyze_performance fs choice = (fs, .errorCaught)) := by
  refine ⟨rfl, ?_, ?_, ?_⟩
  · intro h
    rcases content with _ | ⟨l, ls⟩
    · rfl
    · simp [initialize_csv, h]
  · intro e h
    rcases content with _ | ⟨l, ls⟩
    · simp [initialize_csv, read_csv] at h
    · by_cases hall : ls.all (fun r => r.length ≤ l.length)
      · have hr : read_csv (l :: ls) = .ok ⟨l, ls⟩ := by simp [read_csv, hall]
        simp [initialize_csv, hr] at h
      · have hr : read_csv (l :: ls) = .error .parserError := by simp [read_csv, hall]
        simp [initialize_csv, hr] at h
        exact h.symm
  · intro fs choice hcsv h
    rcases content with _ | ⟨l, ls⟩
    · simp [read_csv] at h
    · rcases fs with ⟨csv, p1, p2⟩
      simp only at hcsv
      subst hcsv
      simp [analyze_performance, h]

/-- Witness for C5 (amended): a size-zero file initializes to the fresh
header-only table, and analysis on the malformed file reports the caught
error without touching the file system. -/
theorem parse_error_handling_witness :
    initialize_csv (some []) = .ok [headerRow] ∧
    analyze_performance ⟨some [["Name", "Machine Learning"], ["x", "1", "2"]], none, none⟩ "1" =
      (⟨some [["Name", "Machine Learning"], ["x", "1", "2"]], none, none⟩, .errorCaught) :=
  ⟨(parse_error_handling []).2.1 rfl,
   (parse_error_handling [["Name", "Machine Learning"], ["x", "1", "2"]]).2.2.2
     ⟨some [["Name", "Machine Learning"], ["x", "1", "2"]], none, none⟩ "1" rfl rfl⟩

/-- `mapM` over `Option` fails when some element fails. -/
theorem mapM_option_none {α β : Type} (f : α → Option β) (l : List α)
    (h : ∃ a ∈ l, f a = none) : l.mapM f = none := by
  rw [← List.mapM'_eq_mapM]
  induction l with
  | nil => simp at h
  | cons a t ih =>
      rcases h with ⟨x, hx, hfx⟩
      rcases List.mem_cons.mp hx with rfl | hxt
      · simp [List.mapM', hfx]
      · cases hfa : f a <;> simp [List.mapM', hfa, ih ⟨x, hxt, hfx⟩]

/-- C7: when some subject column is absent from the dataframe (the
`KeyError` case), `calculate_percentage` prints exactly one warning naming
the student and returns `0.0` for that record; applying the percentage
computation across a table containing such a record still computes every
other record (the map is not aborted). -/
theorem calculate_percentage_keyerror (cols : List String) (r : Row)
    (h : ∃ sub ∈ SUBJECTS, cols.contains sub = false) :
    calculate_percentage cols r = (some 0, ["Warning: Missing subject data for " ++ r.name]) ∧
    ∀ pre post : List Row,
      (pre ++ r :: post).map (fun x => (calculate_percentage cols x).1) =
        pre.map (fun x => (calculate_percentage cols x).1) ++
          some 0 :: post.map (fun x => (calculate_percentage cols x).1) := by
  have hmap : SUBJECTS.mapM (getCell cols r) = none := by
    apply mapM_option_none
    rcases h with ⟨sub, hsub, hc⟩
    exact ⟨sub, hsub, by rw [getCell, if_neg (by simpa using hc)]⟩
  have h1 : calculate_percentage cols r =
      (some 0, ["Warning: Missing subject data for " ++ r.name]) := by
    rw [calculate_percentage, hmap]
  refine ⟨h1, ?_⟩
  intro pre post
  simp [h1]

/-- Witness for C7: the dataframe lacks the `ES` column. -/
theorem calculate_percentage_keyerror_witness :
    calculate_percentage ["Name", "Machine Learning", "UHV", "DMGT", "DBMS", "OT"]
        ⟨"x", [("Machine Learning", 5)]⟩ =
      (some 0, ["Warning: Missing subject data for " ++ "x"]) :=
  (calculate_percentage_keyerror ["Name", "Machine Learning", "UHV", "DMGT", "DBMS", "OT"]
    ⟨"x", [("Machine Learning", 5)]⟩ (by decide)).1

/-- C10: no analysis-submenu action ever writes the CSV store: one submenu
round only updates the chart images, and the whole of
`analyze_performance` (including its entry checks and error path) leaves
the stored file exactly as it was — the derived Percentage/Grade values
are never persisted. -/
theorem analysis_preserves_store (fs : FS) (t : Table) (choice : String) :
    (submenu_step fs t choice).1.csv = fs.csv ∧
    (analyze_performance fs choice).1.csv = fs.csv := by
  have hsub : ∀ (fs' : FS) (t' : Table), (submenu_step fs' t' choice).1.csv = fs'.csv := by
    intro fs' t'
    unfold submenu_step
    split_ifs <;> rfl
  refine ⟨hsub fs t, ?_⟩
  rcases fs with ⟨csv, p1, p2⟩
  rcases csv with _ | content
  · rfl
  rcases content with _ | ⟨l, ls⟩
  · rfl
  rcases hr : read_csv (l :: ls) with e | fr
  · simp [analyze_performance, hr]
  · by_cases he : fr.rows.isEmpty
    · simp [analyze_performance, hr, he]
    · simp only [analyze_performance, hr, he, Bool.false_eq_true, if_false]
      exact hsub _ _

/-- C9: on an empty store — file absent, file of size zero, or a file
holding only the header line — every analysis request reports the distinct
no-data message (and does not enter the submenu), so none of the aggregate
computations (subject averages, topper/duller, class statistics) is ever
produced from empty data. -/
theorem analyze_empty_store (choice : String) (fs : FS)
    (h : fs.csv = none ∨ fs.csv = some [] ∨ fs.csv = some [headerRow]) :
    (analyze_performance fs choice = (fs, .noDataFound) ∨
     analyze_performance fs choice = (fs, .noStudentRecords)) ∧
    (∀ x, (analyze_performance fs choice).2 ≠ .subjectAvgs x) ∧
    (∀ x y, (analyze_performance fs choice).2 ≠ .topperDuller x y) ∧
    (∀ a g hi lo c, (analyze_performance fs choice).2 ≠ .classStats a g hi lo c) := by
  rcases fs with ⟨csv, p1, p2⟩
  have hmain : analyze_performance ⟨csv, p1, p2⟩ choice = (⟨csv, p1, p2⟩, .noDataFound) ∨
      analyze_performance ⟨csv, p1, p2⟩ choice = (⟨csv, p1, p2⟩, .noStudentRecords) := by
    rcases h with h | h | h <;> simp only at h <;> subst h
    · exact Or.inl rfl
    · exact Or.inl rfl
    · exact Or.inr rfl
  refine ⟨hmain, ?_, ?_, ?_⟩ <;> rcases hmain with hm | hm <;> simp [hm]

/-- Adding `NaN` to anything is `NaN`. -/
theorem nanAdd_none_right (acc : PFloat) : nanAdd acc none = none := by
  cases acc <;> rfl

/-- Folding `nanAdd` from `NaN` stays `NaN`. -/
theorem foldl_nanAdd_none (l : List PFloat) : l.foldl nanAdd none = none := by
  induction l with
  | nil => rfl
  | cons c t ih =>
      have : nanAdd none c = none := by cases c <;> rfl
      simp [this, ih]

/-- A `NaN` summand makes the whole sum `NaN`. -/
theorem nanSum_of_mem_none (l : List PFloat) (h : none ∈ l) : nanSum l = none := by
  rw [nanSum]
  generalize (some 0 : PFloat) = acc
  induction l generalizing acc with
  | nil => simp at h
  | cons c t ih =>
      rcases List.mem_cons.mp h with rfl | ht
      · simp only [List.foldl_cons, nanAdd_none_right]
        exact foldl_nanAdd_none t
      · exact ih ht _

/-- A lookup over keys all different from `a` fails. -/
theorem lookup_eq_none_of_not_key {β : Type} (l : List (String × β)) (a : String)
    (h : ∀ p ∈ l, p.1 ≠ a) : l.lookup a = none := by
  induction l with
  | nil => rfl
  | cons p t ih =>
      rcases p with ⟨k, b⟩
      have hne : k ≠ a := h (k, b) (by simp)
      have hk : (a == k) = false := beq_eq_false_iff_ne.mpr (fun hak => hne hak.symm)
      simp [List.lookup, hk, ih (fun q hq => h q (by simp [hq]))]

/-- Lookup in a constant-valued association list built over keys `l`. -/
theorem lookup_map_self {β : Type} (c : β) (l : List String) (a : String) (h : a ∈ l) :
    (l.map (fun s => (s, c))).lookup a = some c := by
  induction l with
  | nil => simp at h
  | cons s t ih =>
      by_cases hsa : a = s
      · subst hsa
        simp [List.lookup]
      · have hk : (a == s) = false := beq_eq_false_iff_ne.mpr hsa
        have ht : a ∈ t := by
          rcases List.mem_cons.mp h with rfl | ht
          · exact absurd rfl hsa
          · exact ht
        simp [List.lookup, hk, ih ht]

/-- A lookup that fails on the first list continues into the second. -/
theorem lookup_append_of_none {β : Type} (l₁ l₂ : List (String × β)) (a : String)
    (h : l₁.lookup a = none) : (l₁ ++ l₂).lookup a = l₂.lookup a := by
  induction l₁ with
  | nil => rfl
  | cons p t ih =>
      rcases p with ⟨k, b⟩
      rcases hkb : (a == k) with _ | _
      · rw [List.lookup] at h
        rw [hkb] at h
        simp only [List.cons_append, List.lookup, hkb]
        exact ih h
      · rw [List.lookup, hkb] at h
        cases h

/-- `mapM` over `Option` of an everywhere-succeeding function is the map. -/
theorem mapM_option_map {α β : Type} (f : α → Option β) (g : α → β) (l : List α)
    (h : ∀ a ∈ l, f a = some (g a)) : l.mapM f = some (l.map g) := by
  induction l with
  | nil => rfl
  | cons a t ih =>
      exact mapM_option_cons _ _ _ _ _ (h a (by simp)) (ih fun x hx => h x (by simp [hx]))

/-- C6 counterexample: an individually missing cell value is NOT treated as
mark 0.  A record with five stored 100s and a missing `ES` cell gets a
`NaN` percentage (not the percentage of the 0-filled record, which is
defined), and the subject average over a table containing it skips the
record instead of counting a 0 (average 100, not (100+0)/2 = 50). -/
theorem missing_cell_not_treated_as_zero :
    (calculate_percentage headerRow
      ⟨"x", [("Machine Learning", 100), ("UHV", 100), ("DMGT", 100), ("DBMS", 100),
        ("OT", 100)]⟩).1 = none ∧
    (calculate_percentage headerRow
      ⟨"x", [("Machine Learning", 100), ("UHV", 100), ("DMGT", 100), ("DBMS", 100),
        ("OT", 100), ("ES", 0)]⟩).1 ≠ none ∧
    (calculate_percentage headerRow
      ⟨"x", [("Machine Learning", 100), ("UHV", 100), ("DMGT", 100), ("DBMS", 100),
        ("OT", 100)]⟩).1 ≠
      (calculate_percentage headerRow
        ⟨"x", [("Machine Learning", 100), ("UHV", 100), ("DMGT", 100), ("DBMS", 100),
          ("OT", 100), ("ES", 0)]⟩).1 ∧
    col_mean
      [⟨"y", [("Machine Learning", 100), ("UHV", 100), ("DMGT", 100), ("DBMS", 100),
        ("OT", 100), ("ES", 100)]⟩,
       ⟨"x", [("Machine Learning", 100), ("UHV", 100), ("DMGT", 100), ("DBMS", 100),
        ("OT", 100)]⟩] "ES" = some 100 ∧
    some (100 : ℚ) ≠ some (((100 : ℚ) + 0) / 2) := by
  have hmap1 : SUBJECTS.mapM (getCell headerRow
      ⟨"x", [("Machine Learning", 100), ("UHV", 100), ("DMGT", 100), ("DBMS", 100),
        ("OT", 100)]⟩) =
      some [some (100 : ℚ), some 100, some 100, some 100, some 100, none] := rfl
  have hmap2 : SUBJECTS.mapM (getCell headerRow
      ⟨"x", [("Machine Learning", 100), ("UHV", 100), ("DMGT", 100), ("DBMS", 100),
        ("OT", 100), ("ES", 0)]⟩) =
      some [some (100 : ℚ), some 100, some 100, some 100, some 100, some 0] := rfl
  have hns1 : nanSum [some (100 : ℚ), some 100, some 100, some 100, some 100, none] = none :=
    nanSum_of_mem_none _ (by simp)
  have hns2 : nanSum [some (100 : ℚ), some 100, some 100, some 100, some 100, some 0] =
      some (0 + 100 + 100 + 100 + 100 + 100 + 0) := rfl
  have h1 : (calculate_percentage headerRow
      ⟨"x", [("Machine Learning", 100), ("UHV", 100), ("DMGT", 100), ("DBMS", 100),
        ("OT", 100)]⟩).1 = none := by
    rw [calculate_percentage, hmap1]
    simp [hns1]
  have h2 : (calculate_percentage headerRow
      ⟨"x", [("Machine Learning", 100), ("UHV", 100), ("DMGT", 100), ("DBMS", 100),
        ("OT", 100), ("ES", 0)]⟩).1 ≠ none := by
    rw [calculate_percentage, hmap2]
    simp [hns2]
  have hv : ([⟨"y", [("Machine Learning", 100), ("UHV", 100), ("DMGT", 100), ("DBMS", 100),
        ("OT", 100), ("ES", 100)]⟩,
      ⟨"x", [("Machine Learning", 100), ("UHV", 100), ("DMGT", 100), ("DBMS", 100),
        ("OT", 100)]⟩] : List Row).filterMap (fun r => r.data.lookup "ES") =
      [(100 : ℚ)] := rfl
  refine ⟨h1, h2, by rw [h1]; exact fun hc => h2 hc.symm, ?_, by norm_num⟩
  rw [col_mean]
  simp only [hv]
  norm_num

/-- C6 (amended): a subject *column* missing from the dataframe is added
with value 0 for every record, and those zeros are what all downstream
computations see; an individually missing *cell* value is not treated as
0 — the record's percentage becomes `NaN` and its grade `F`, and the cell
is skipped (not counted as 0) by the subject-average computation. -/
theorem missing_column_zero_missing_cell_nan :
    (∀ (t : Table) (sub : String), sub ∈ SUBJECTS → t.cols.contains sub = false →
      (∀ r ∈ t.rows, ∀ p ∈ r.data, p.1 ∈ t.cols) →
      ∀ r ∈ (ensure_columns_table t).rows,
        getCell (ensure_columns_table t).cols r sub = some (some 0)) ∧
    (∀ (cols : List String) (r : Row), (∀ s ∈ SUBJECTS, cols.contains s = true) →
      (∃ sub ∈ SUBJECTS, r.data.lookup sub = none) →
      (calculate_percentage cols r).1 = none ∧
        assign_grade_float (calculate_percentage cols r).1 = "F") ∧
    (∀ (pre post : List Row) (r : Row) (sub : String), r.data.lookup sub = none →
      col_mean (pre ++ r :: post) sub = col_mean (pre ++ post) sub) := by
  refine ⟨?_, ?_, ?_⟩
  · intro t sub hsub hmiss hwf r' hr'
    have hnotmem : sub ∉ t.cols := by
      intro hmem
      have : t.cols.contains sub = true := by simpa using hmem
      rw [hmiss] at this
      cases this
    simp only [ensure_columns_table] at hr' ⊢
    obtain ⟨r, hr, rfl⟩ := List.mem_map.mp hr'
    have hsubmiss : sub ∈ SUBJECTS.filter (fun s => ¬ t.cols.contains s) :=
      List.mem_filter.mpr ⟨hsub, by simp [hnotmem]⟩
    have hcont : ((t.cols ++ SUBJECTS.filter (fun s => ¬ t.cols.contains s)).contains sub)
        = true := by
      have hm : sub ∈ t.cols ++ SUBJECTS.filter (fun s => ¬ t.cols.contains s) :=
        List.mem_append.mpr (Or.inr hsubmiss)
      simpa using hm
    rw [getCell, if_pos hcont]
    have hnone : r.data.lookup sub = none := by
      apply lookup_eq_none_of_not_key
      intro p hp hpa
      exact hnotmem (hpa ▸ hwf r hr p hp)
    rw [lookup_append_of_none _ _ _ hnone,
      lookup_map_self (0 : ℚ) _ sub hsubmiss]
  · intro cols r hall hex
    have hmapM : SUBJECTS.mapM (getCell cols r) =
        some (SUBJECTS.map (fun s => r.data.lookup s)) := by
      apply mapM_option_map
      intro s hs
      rw [getCell, if_pos (hall s hs)]
    rcases hex with ⟨sub, hsub, hlk⟩
    have hmem : none ∈ SUBJECTS.map (fun s => r.data.lookup s) :=
      List.mem_map.mpr ⟨sub, hsub, hlk⟩
    have h1 : (calculate_percentage cols r).1 = none := by
      rw [calculate_percentage, hmapM]
      simp [nanSum_of_mem_none _ hmem]
    exact ⟨h1, by rw [h1]; rfl⟩
  · intro pre post r sub h
    have hfm : (pre ++ r :: post).filterMap (fun x => x.data.lookup sub) =
        (pre ++ post).filterMap (fun x => x.data.lookup sub) := by
      simp [List.filterMap_append, List.filterMap_cons, h]
    rw [col_mean, col_mean, hfm]

/-- Witness for C6 (amended): the `ES` column is absent from a one-record
table and gets filled with 0; the record with a missing `ES` cell has `NaN`
percentage and grade `F`; the subject mean skips the missing cell. -/
theorem missing_column_zero_missing_cell_nan_witness :
    (∀ r ∈ (ensure_columns_table
        ⟨["Name", "Machine Learning", "UHV", "DMGT", "DBMS", "OT"],
         [⟨"x", [("Machine Learning", 50)]⟩]⟩).rows,
      getCell (ensure_columns_table
        ⟨["Name", "Machine Learning", "UHV", "DMGT", "DBMS", "OT"],
         [⟨"x", [("Machine Learning", 50)]⟩]⟩).cols r "ES" = some (some 0)) ∧
    ((calculate_percentage headerRow ⟨"x", [("Machine Learning", 100)]⟩).1 = none ∧
      assign_grade_float (calculate_percentage headerRow
        ⟨"x", [("Machine Learning", 100)]⟩).1 = "F") ∧
    col_mean [⟨"x", [("Machine Learning", 100)]⟩] "ES" = col_mean [] "ES" :=
  ⟨missing_column_zero_missing_cell_nan.1
      ⟨["Name", "Machine Learning", "UHV", "DMGT", "DBMS", "OT"],
       [⟨"x", [("Machine Learning", 50)]⟩]⟩ "ES" (by decide) (by decide) (by decide),
   missing_column_zero_missing_cell_nan.2.1 headerRow ⟨"x", [("Machine Learning", 100)]⟩
     (by decide) ⟨"ES", by decide, rfl⟩,
   missing_column_zero_missing_cell_nan.2.2 [] [] ⟨"x", [("Machine Learning", 100)]⟩ "ES" rfl⟩

/-- Full characterization of the argmax scan continuing from a current
best `(j, m)`: the best is either kept (nothing beats it) or replaced by a
list entry that beats it, is unbeaten, and is the first unbeaten entry. -/
theorem argBestAux_go (better : ℚ → ℚ → Bool)
    (htrans : ∀ a b c, better a b = true → better b c = true → better a c = true)
    (hirr : ∀ a, better a a = false) :
    ∀ (l : List PFloat) (i j : ℕ) (m : ℚ),
      ∃ r w, argBestAux better l i (some (j, m)) = some (r, w) ∧
        ((r = j ∧ w = m ∧ ∀ p v, l.get? p = some (some v) → better v w = false) ∨
         (∃ p, l.get? p = some (some w) ∧ r = i + p ∧ better w m = true ∧
           (∀ q v, l.get? q = some (some v) → better v w = false) ∧
           (∀ q, q < p → l.get? q ≠ some (some w)))) := by
  intro l
  induction l with
  | nil =>
      intro i j m
      exact ⟨j, m, rfl, Or.inl ⟨rfl, rfl, by simp⟩⟩
  | cons c t ih =>
      intro i j m
      rcases c with _ | v
      · -- NaN head: skipped
        obtain ⟨r, w, heq, hc⟩ := ih (i + 1) j m
        refine ⟨r, w, heq, ?_⟩
        rcases hc with ⟨h1, h2, h3⟩ | ⟨p, hp, hr, hbm, hall, hbef⟩
        · refine Or.inl ⟨h1, h2, ?_⟩
          intro p v hpv
          rcases p with _ | p
          · simp at hpv
          · exact h3 p v hpv
        · refine Or.inr ⟨p + 1, hp, by omega, hbm, ?_, ?_⟩
          · intro q v hqv
            rcases q with _ | q
            · simp at hqv
            · exact hall q v hqv
          · intro q hq
            rcases q with _ | q
            · simp
            · exact hbef q (by omega)
      · -- numeric head
        by_cases hb : better v m = true
        · -- new best (i, v)
          have hstep : argBestAux better (some v :: t) i (some (j, m)) =
              argBestAux better t (i + 1) (some (i, v)) := by
            simp [argBestAux, hb]
          obtain ⟨r, w, heq, hc⟩ := ih (i + 1) i v
          rw [hstep]
          refine ⟨r, w, heq, ?_⟩
          rcases hc with ⟨h1, h2, h3⟩ | ⟨p, hp, hr, hbw, hall, hbef⟩
          · -- best (i, v) kept through t
            refine Or.inr ⟨0, by simp [h2], by omega, by rw [h2]; exact hb, ?_, ?_⟩
            · intro q v' hqv
              rcases q with _ | q
              · have hvv : v = v' := by simpa using hqv
                rw [← hvv, h2]
                exact hirr v
              · exact h3 q v' hqv
            · intro q hq
              omega
          · -- replaced later inside t at local index p
            refine Or.inr ⟨p + 1, hp, by omega, htrans w v m hbw hb, ?_, ?_⟩
            · intro q v' hqv
              rcases q with _ | q
              · have hvv : v = v' := by simpa using hqv
                rw [← hvv]
                by_contra hvw
                rw [Bool.not_eq_false] at hvw
                have hcyc := htrans v w v hvw hbw
                rw [hirr v] at hcyc
                cases hcyc
              · exact hall q v' hqv
            · intro q hq
              rcases q with _ | q
              · intro hc
                have hvw : v = w := by simpa using hc
                rw [← hvw] at hbw
                rw [hirr v] at hbw
                cases hbw
              · exact hbef q (by omega)
        · -- keep best (j, m)
          have hb' : better v m = false := by
            rcases hbv : better v m with _ | _
            · rfl
            · exact absurd hbv hb
          have hstep : argBestAux better (some v :: t) i (some (j, m)) =
              argBestAux better t (i + 1) (some (j, m)) := by
            simp [argBestAux, hb']
          obtain ⟨r, w, heq, hc⟩ := ih (i + 1) j m
          rw [hstep]
          refine ⟨r, w, heq, ?_⟩
          rcases hc with ⟨h1, h2, h3⟩ | ⟨p, hp, hr, hbm, hall, hbef⟩
          · refine Or.inl ⟨h1, h2, ?_⟩
            intro q v' hqv
            rcases q with _ | q
            · have hvv : v = v' := by simpa using hqv
              rw [← hvv, h2]
              exact hb'
            · exact h3 q v' hqv
          · refine Or.inr ⟨p + 1, hp, by omega, hbm, ?_, ?_⟩
            · intro q v' hqv
              rcases q with _ | q
              · have hvv : v = v' := by simpa using hqv
                rw [← hvv]
                by_contra hvw
                rw [Bool.not_eq_false] at hvw
                have hchain := htrans v w m hvw hbm
                rw [hb'] at hchain
                cases hchain
              · exact hall q v' hqv
            · intro q hq
              rcases q with _ | q
              · intro hc
                have hvw : v = w := by simpa using hc
                rw [← hvw] at hbm
                rw [hbm] at hb'
                cases hb'
              · exact hbef q (by omega)

/-- The argmax scan from no current best returns `none` exactly on a
value-free list, and otherwise the first occurrence of an unbeaten value. -/
theorem argBestAux_start (better : ℚ → ℚ → Bool)
    (htrans : ∀ a b c, better a b = true → better b c = true → better a c = true)
    (hirr : ∀ a, better a a = false) :
    ∀ (l : List PFloat) (i : ℕ),
      (argBestAux better l i none = none ∧ ∀ p v, l.get? p ≠ some (some v)) ∨
      (∃ r w, argBestAux better l i none = some (r, w) ∧
        ∃ p, l.get? p = some (some w) ∧ r = i + p ∧
          (∀ q v, l.get? q = some (some v) → better v w = false) ∧
          (∀ q, q < p → l.get? q ≠ some (some w))) := by
  intro l
  induction l with
  | nil =>
      intro i
      exact Or.inl ⟨rfl, by simp⟩
  | cons c t ih =>
      intro i
      rcases c with _ | v
      · rcases ih (i + 1) with ⟨heq, hnone⟩ | ⟨r, w, heq, p, hp, hr, hall, hbef⟩
        · refine Or.inl ⟨heq, ?_⟩
          intro p v hpv
          rcases p with _ | p
          · simp at hpv
          · exact hnone p v hpv
        · refine Or.inr ⟨r, w, heq, p + 1, hp, by omega, ?_, ?_⟩
          · intro q v hqv
            rcases q with _ | q
            · simp at hqv
            · exact hall q v hqv
          · intro q hq
            rcases q with _ | q
            · simp
            · exact hbef q (by omega)
      · have hstep : argBestAux better (some v :: t) i none =
            argBestAux better t (i + 1) (some (i, v)) := by
          simp [argBestAux]
        obtain ⟨r, w, heq, hc⟩ := argBestAux_go better htrans hirr t (i + 1) i v
        rw [hstep]
        rcases hc with ⟨h1, h2, h3⟩ | ⟨p, hp, hr, hbw, hall, hbef⟩
        · refine Or.inr ⟨r, w, heq, 0, by simp [h2], by omega, ?_, ?_⟩
          · intro q v' hqv
            rcases q with _ | q
            · have hvv : v = v' := by simpa using hqv
              rw [← hvv, h2]
              exact hirr v
            · exact h3 q v' hqv
          · intro q hq
            omega
        · refine Or.inr ⟨r, w, heq, p + 1, hp, by omega, ?_, ?_⟩
          · intro q v' hqv
            rcases q with _ | q
            · have hvv : v = v' := by simpa using hqv
              rw [← hvv]
              by_contra hvw
              rw [Bool.not_eq_false] at hvw
              have hcyc := htrans v w v hvw hbw
              rw [hirr v] at hcyc
              cases hcyc
            · exact hall q v' hqv
          · intro q hq
            rcases q with _ | q
            · intro hc
              have hvw : v = w := by simpa using hc
              rw [← hvw] at hbw
              rw [hirr v] at hbw
              cases hbw
            · exact hbef q (by omega)

/-- `idxmax` returns, whenever the series has any value at all, the index
of an unbeaten value whose earlier entries all differ from it. -/
theorem idxmax_first (l : List PFloat) (p0 : ℕ) (v0 : ℚ)
    (h : l.get? p0 = some (some v0)) :
    ∃ r w, idxmax l = some r ∧ l.get? r = some (some w) ∧
      (∀ q v, l.get? q = some (some v) → v ≤ w) ∧
      (∀ q, q < r → l.get? q ≠ some (some w)) := by
  have htrans : ∀ a b c : ℚ, (fun v m : ℚ => decide (m < v)) a b = true →
      (fun v m : ℚ => decide (m < v)) b c = true →
      (fun v m : ℚ => decide (m < v)) a c = true := by
    intro a b c h1 h2
    simp only [decide_eq_true_eq] at h1 h2 ⊢
    linarith
  have hirr : ∀ a : ℚ, (fun v m : ℚ => decide (m < v)) a a = false := by
    intro a
    simp
  rcases argBestAux_start (fun v m : ℚ => decide (m < v)) htrans hirr l 0 with
    ⟨heq, hnone⟩ | ⟨r, w, heq, p, hp, hr, hall, hbef⟩
  · exact absurd h (hnone p0 v0)
  · have hrp : r = p := by omega
    refine ⟨r, w, ?_, ?_, ?_, ?_⟩
    · rw [idxmax, heq]
      rfl
    · rw [hrp]
      exact hp
    · intro q v hqv
      have := hall q v hqv
      simp only [decide_eq_false_iff_not, not_lt] at this
      exact this
    · intro q hq
      exact hbef q (by omega)

/-- `idxmin` returns, whenever the series has any value at all, the index
of a minimal value whose earlier entries all differ from it. -/
theorem idxmin_first (l : List PFloat) (p0 : ℕ) (v0 : ℚ)
    (h : l.get? p0 = some (some v0)) :
    ∃ r w, idxmin l = some r ∧ l.get? r = some (some w) ∧
      (∀ q v, l.get? q = some (some v) → w ≤ v) ∧
      (∀ q, q < r → l.get? q ≠ some (some w)) := by
  have htrans : ∀ a b c : ℚ, (fun v m : ℚ => decide (v < m)) a b = true →
      (fun v m : ℚ => decide (v < m)) b c = true →
      (fun v m : ℚ => decide (v < m)) a c = true := by
    intro a b c h1 h2
    simp only [decide_eq_true_eq] at h1 h2 ⊢
    linarith
  have hirr : ∀ a : ℚ, (fun v m : ℚ => decide (v < m)) a a = false := by
    intro a
    simp
  rcases argBestAux_start (fun v m : ℚ => decide (v < m)) htrans hirr l 0 with
    ⟨heq, hnone⟩ | ⟨r, w, heq, p, hp, hr, hall, hbef⟩
  · exact absurd h (hnone p0 v0)
  · have hrp : r = p := by omega
    refine ⟨r, w, ?_, ?_, ?_, ?_⟩
    · rw [idxmin, heq]
      rfl
    · rw [hrp]
      exact hp
    · intro q v hqv
      have := hall q v hqv
      simp only [decide_eq_false_iff_not, not_lt] at this
      exact this
    · intro q hq
      exact hbef q (by omega)

/-- C8: in a table where several records tie for the maximal percentage
(and several tie for the minimal one), the topper is the record at the
index returned by `idxmax`, which carries the maximal value and is the
first such index in stored order (no earlier record has that percentage);
dually for the duller via `idxmin`. -/
theorem topper_duller_first_of_tie (t : Table)
    (iM jM : ℕ) (M : ℚ) (_hMij : iM < jM)
    (hM1 : (pct_col t).get? iM = some (some M))
    (_hM2 : (pct_col t).get? jM = some (some M))
    (hMmax : ∀ q v, (pct_col t).get? q = some (some v) → v ≤ M)
    (im jm : ℕ) (m : ℚ) (_hmij : im < jm)
    (hm1 : (pct_col t).get? im = some (some m))
    (_hm2 : (pct_col t).get? jm = some (some m))
    (hmmin : ∀ q v, (pct_col t).get? q = some (some v) → m ≤ v) :
    (∃ r, idxmax (pct_col t) = some r ∧ topper t = t.rows.get? r ∧
      (pct_col t).get? r = some (some M) ∧
      ∀ q, q < r → (pct_col t).get? q ≠ some (some M)) ∧
    (∃ r, idxmin (pct_col t) = some r ∧ duller t = t.rows.get? r ∧
      (pct_col t).get? r = some (some m) ∧
      ∀ q, q < r → (pct_col t).get? q ≠ some (some m)) := by
  constructor
  · obtain ⟨r, w, hidx, hrw, hmaxb, hbef⟩ := idxmax_first (pct_col t) iM M hM1
    have hwM : w = M := le_antisymm (hMmax r w hrw) (hmaxb iM M hM1)
    subst hwM
    exact ⟨r, hidx, by rw [topper, hidx]; rfl, hrw, hbef⟩
  · obtain ⟨r, w, hidx, hrw, hminb, hbef⟩ := idxmin_first (pct_col t) im m hm1
    have hwm : w = m := le_antisymm (hminb im m hm1) (hmmin r w hrw)
    subst hwm
    exact ⟨r, hidx, by rw [duller, hidx]; rfl, hrw, hbef⟩

/-- A uniform six-mark row has exactly its mark as percentage. -/
theorem pct_mkRow_const (nm : String) (v : ℕ) :
    pctOf headerRow (mkRow nm [v, v, v, v, v, v]) = some (v : ℚ) := by
  rw [pctOf, calc_pct_six]
  have harg : ((v : ℚ) + v + v + v + v + v) / ((SUBJECTS.length : ℚ) * 100) * 100 =
      ((v : ℕ) : ℚ) := by
    have hlen : ((SUBJECTS.length : ℕ) : ℚ) = 6 := by norm_num [SUBJECTS]
    rw [hlen]
    field_simp
    ring
  rw [harg]
  have hr := round2_intCast (v : ℤ)
  push_cast at hr
  rw [hr]

/-- The percentage column of the tie table. -/
theorem pct_col_tieTable :
    pct_col tieTable = [some 60, some 60, some 40, some 40] := by
  have h60a := pct_mkRow_const "a" 60
  have h60b := pct_mkRow_const "b" 60
  have h40c := pct_mkRow_const "c" 40
  have h40d := pct_mkRow_const "d" 40
  norm_num at h60a h60b h40c h40d
  simp [pct_col, tieTable, h60a, h60b, h40c, h40d]

/-- Witness for C8 on the concrete tie table: records 0 and 1 tie at the
maximal percentage 60, records 2 and 3 tie at the minimal percentage 40. -/
theorem topper_duller_first_of_tie_witness :
    (∃ r, idxmax (pct_col tieTable) = some r ∧ topper tieTable = tieTable.rows.get? r ∧
      (pct_col tieTable).get? r = some (some 60) ∧
      ∀ q, q < r → (pct_col tieTable).get? q ≠ some (some 60)) ∧
    (∃ r, idxmin (pct_col tieTable) = some r ∧ duller tieTable = tieTable.rows.get? r ∧
      (pct_col tieTable).get? r = some (some 40) ∧
      ∀ q, q < r → (pct_col tieTable).get? q ≠ some (some 40)) :=
  topper_duller_first_of_tie tieTable 0 1 60 (by norm_num)
    (by rw [pct_col_tieTable]; rfl) (by rw [pct_col_tieTable]; rfl)
    (by
      intro q v h
      rw [pct_col_tieTable] at h
      rcases q with _ | _ | _ | _ | q <;> simp_all <;> linarith)
    2 3 40 (by norm_num)
    (by rw [pct_col_tieTable]; rfl) (by rw [pct_col_tieTable]; rfl)
    (by
      intro q v h
      rw [pct_col_tieTable] at h
      rcases q with _ | _ | _ | _ | q <;> simp_all <;> linarith)

/-- Witness for C9: the header-only store with the subject-averages choice. -/
theorem analyze_empty_store_witness :
    (analyze_performance ⟨some [headerRow], none, none⟩ "2" =
        (⟨some [headerRow], none, none⟩, .noDataFound) ∨
     analyze_performance ⟨some [headerRow], none, none⟩ "2" =
        (⟨some [headerRow], none, none⟩, .noStudentRecords)) ∧
    (∀ x, (analyze_performance ⟨some [headerRow], none, none⟩ "2").2 ≠ .subjectAvgs x) ∧
    (∀ x y, (analyze_performance ⟨some [headerRow], none, none⟩ "2").2 ≠ .topperDuller x y) ∧
    (∀ a g hi lo c,
      (analyze_performance ⟨some [headerRow], none, none⟩ "2").2 ≠ .classStats a g hi lo c) :=
  analyze_empty_store "2" ⟨some [headerRow], none, none⟩ (Or.inr (Or.inr rfl))

end StudentAnalyzer
